import Mathlib

/-!
Shallow embedding of the git pre-push hook `src/hooks/pre-push.py` (ADO
integration): commit-message ticket extraction, iteration resolution over the
ADO classification-node tree, work-item updates, and the per-push-line
controller `process_commits` together with `main`.

External collaborators (the `git` subprocess calls, the `requests` HTTP
library, and the `datetime` parsing library) are modelled as explicit oracle
parameters; everything else is translated directly from the Python source.
Python strings are modelled over `List Char` (Python semantics: a string is a
sequence of code points), so that every definition evaluates by kernel
reduction.
-/

/-! ## Python string primitives -/

/-- Python falsiness of a string (`not s`): true exactly for the empty
string. Phrased over the char list so it evaluates by kernel reduction. -/
def pyStrFalsy (s : String) : Bool :=
  s.toList.isEmpty

/-- Python truthiness of an optional string (`if found_name:`):
`None` and the empty string are falsy. -/
def pyTruthy : Option String → Bool
  | none => false
  | some s => !pyStrFalsy s

/-- Python truthiness of `dict.get(...)` on a string field
(`if start_date_str and end_date_str:`). -/
def strTruthy : Option String → Bool
  | none => false
  | some s => !pyStrFalsy s

/-- Python `str.strip()` on a char list: drop whitespace from both ends. -/
def pyStripChars (l : List Char) : List Char :=
  ((l.dropWhile Char.isWhitespace).reverse.dropWhile Char.isWhitespace).reverse

/-- Python `str.strip()`. -/
def pyStrip (s : String) : String :=
  String.mk (pyStripChars s.toList)

/-- Python `str.split()` with no separator: split on whitespace runs,
no empty tokens. Accumulator holds the current token reversed. -/
def pySplitWsAux : List Char → List Char → List String
  | [], acc => if acc.isEmpty then [] else [String.mk acc.reverse]
  | c :: cs, acc =>
    if c.isWhitespace then
      if acc.isEmpty then pySplitWsAux cs [] else String.mk acc.reverse :: pySplitWsAux cs []
    else pySplitWsAux cs (c :: acc)

/-- Python `str.split()` (whitespace, empties dropped). -/
def pySplitWs (s : String) : List String :=
  pySplitWsAux s.toList []

/-- Python `s.split('/')[-1]`: the text after the last `'/'` (the whole
string when there is no `'/'`; empty when the string ends in `'/'`). -/
def afterLastSlash (s : String) : String :=
  String.mk ((s.toList.reverse.takeWhile (fun c => c ≠ '/')).reverse)

/-- Python `str.upper()` (ASCII case mapping, as in the source's branch names). -/
def pyUpper (s : String) : String :=
  String.mk (s.toList.map Char.toUpper)

/-- Python `a.startswith(b)`. -/
def pyStartsWith (s pre : String) : Bool :=
  pre.toList.isPrefixOf s.toList

/-- Substring containment on char lists: `needle` is a contiguous
subsequence of `hay`. -/
def listIsInfixOf (needle : List Char) : List Char → Bool
  | [] => needle.isEmpty
  | c :: t => needle.isPrefixOf (c :: t) || listIsInfixOf needle t

/-- Python `b in a` on strings: substring containment. -/
def pyContains (hay needle : String) : Bool :=
  listIsInfixOf needle.toList hay.toList

/-! ## Calendar dates

`datetime.fromisoformat(...).astimezone(timezone.utc).date()` produces a
calendar date; Python compares `datetime.date` values lexicographically by
(year, month, day). The parsing library itself is an external collaborator,
modelled below as an oracle `parseDate : String → Option Date` (`none` models
`ValueError`). -/

structure Date where
  year : Nat
  month : Nat
  day : Nat
deriving Repr, DecidableEq

/-- Python `date.__le__`: lexicographic on (year, month, day). -/
def dateLe (a b : Date) : Bool :=
  a.year < b.year ||
    (a.year = b.year && (a.month < b.month ||
      (a.month = b.month && a.day ≤ b.day)))

/-! ## Identifier Extractor (`parse_commit_message`, source lines 260-272)

`re.findall(r'AB#(\d+)', commit_messages, re.IGNORECASE)` scans left to
right for non-overlapping occurrences of `AB#` (case-insensitive on the two
letters) followed by a maximal run of one or more digits, and yields the
digit runs; `set(...)` then deduplicates. -/

/-- Case-insensitive match of the two marker letters (`re.IGNORECASE`). -/
def isAB (a b : Char) : Bool :=
  (a = 'A' || a = 'a') && (b = 'B' || b = 'b')

/-- The regex scan: each match consumes `AB#` and a maximal digit run and
the scan resumes after it; a failed match position advances by one
character. Resuming inside the digit run is equivalent to resuming after
it, because a digit can never begin a new `AB#` occurrence. -/
def scanTickets : List Char → List String
  | a :: b :: '#' :: d :: rest =>
    if isAB a b && d.isDigit then
      String.mk (d :: rest.takeWhile Char.isDigit) :: scanTickets rest
    else scanTickets (b :: '#' :: d :: rest)
  | _ :: rest => scanTickets rest
  | [] => []

/-- `parse_commit_message`: `list(set(re.findall(...)))`. The Python set
iteration order is unspecified; the model fixes first-occurrence order,
which is set-equal to the source's result. -/
def parse_commit_message (commit_messages : String) : List String :=
  (scanTickets commit_messages.toList).dedup

/-- Whether the text contains at least one occurrence of the marker:
`AB#` (case-insensitive on the letters) immediately followed by a digit —
exactly the positions at which the regex `AB#(\d+)` can match. -/
def containsMarker : List Char → Bool
  | a :: b :: '#' :: d :: rest => (isAB a b && d.isDigit) || containsMarker (b :: '#' :: d :: rest)
  | _ :: rest => containsMarker rest
  | [] => false

/-! ## Iteration-node tree (the ADO classification-node JSON) -/

/-- The `attributes` object of a node: optional `startDate` / `finishDate`
string fields (`attributes.get('startDate')`). -/
structure Attrs where
  startDate : Option String
  finishDate : Option String
deriving Repr, DecidableEq

/-- The per-node JSON fields of one classification node, apart from its
children: `name` (`node.get('name')`, absent key modelled as `none`),
`path` (`node.get('path', '')`) and the optional `attributes` object. -/
structure NodeData where
  name : Option String
  path : String
  attributes : Option Attrs
deriving Repr, DecidableEq

/-- A list of sibling classification nodes (a JSON `children` array),
encoded first-order so all traversals are structurally recursive:
`cons data children rest` is the Python list whose head node carries the
fields `data` and the array `children`, and whose remaining siblings are
`rest`. A node with no `children` key, or with an empty array, has
`children = nil`; the two behave identically in the source because
iterating an empty list finds nothing. -/
inductive NodeForest : Type where
  | nil
  | cons (data : NodeData) (children : NodeForest) (rest : NodeForest)
deriving Repr, DecidableEq

/-- Outcome of the per-node body of `find_current_iteration_recursive`
before the recursion into children: the node matched and its name is
returned; or a date failed to parse (warning printed, fall through); or no
match (fall through silently). -/
inductive NodeTest where
  | matched
  | warned
  | noMatch
deriving Repr, DecidableEq

/-- The per-node test, source lines 173-189: `current_year in path` and the
`attributes` key present; both date strings present and non-empty; both
parse (a `ValueError` from either is the `warned` case); and
`start_date <= current_date <= end_date`. -/
def nodeTest (parseDate : String → Option Date) (current_date : Date)
    (current_year : String) (node : NodeData) : NodeTest :=
  if pyContains node.path current_year && node.attributes.isSome then
    match node.attributes with
    | none => .noMatch
    | some attrs =>
      if strTruthy attrs.startDate && strTruthy attrs.finishDate then
        match parseDate (attrs.startDate.getD "") with
        | none => .warned
        | some start_date =>
          match parseDate (attrs.finishDate.getD "") with
          | none => .warned
          | some end_date =>
            if dateLe start_date current_date && dateLe current_date end_date then
              .matched
            else .noMatch
      else .noMatch
  else .noMatch

/-- The node qualifies: the body reaches `return node_name`. -/
def nodeMatches (parseDate : String → Option Date) (current_date : Date)
    (current_year : String) (node : NodeData) : Bool :=
  nodeTest parseDate current_date current_year node = .matched

/-- `find_current_iteration_recursive`, source lines 168-195. Returns the
Python return value together with the list of nodes (by name) for which a
date-parse warning was printed, in print order. A matched node returns
`node.get('name')` immediately — even when that name is `None`; the caller
then tests the returned value for truthiness (`if found_name:`), so a
falsy name does not stop the caller's loop. -/
def find_current_iteration_recursive (parseDate : String → Option Date)
    (current_date : Date) (current_year : String) :
    NodeForest → Option String × List (Option String)
  | .nil => (none, [])
  | .cons data children rest =>
    match nodeTest parseDate current_date current_year data with
    | .matched => (data.name, [])
    | t =>
      let selfW : List (Option String) := if t = .warned then [data.name] else []
      let found := find_current_iteration_recursive parseDate current_date current_year children
      if pyTruthy found.1 then (found.1, selfW ++ found.2)
      else
        let r := find_current_iteration_recursive parseDate current_date current_year rest
        (r.1, selfW ++ (found.2 ++ r.2))

/-- Pre-order flattening of a node forest: each node before its children,
children before later siblings. -/
def preorderList : NodeForest → List NodeData
  | .nil => []
  | .cons data children rest => data :: (preorderList children ++ preorderList rest)

/-! ## `get_current_iteration` (source lines 198-231)

The single `requests.get` call (with `raise_for_status`) and the JSON
decoding are collaborators: an `AdoGetResult` is everything the rest of the
function observes. A `requests.exceptions.RequestException` (connection
error, timeout, or the `HTTPError` from `raise_for_status`) and a JSON
decode error are each caught and yield `None`. -/

/-- The parsed `data` object: presence and value of its `children` key. -/
structure AdoResponse where
  children : Option NodeForest

/-- Observable outcome of the GET + `raise_for_status` + `response.json()`
prefix of `get_current_iteration`. -/
inductive AdoGetResult where
  | requestError (msg : String)
  | jsonError (msg : String)
  | ok (data : AdoResponse)

/-- `get_current_iteration`: on success, searches the children with
`current_year = str(current_date.year)`; returns the iteration only when
truthy (`if iteration:`), else `None`; all failure paths print an error and
return `None` without raising. -/
def get_current_iteration (parseDate : String → Option Date)
    (ado : AdoGetResult) (current_date : Date) : Option String :=
  match ado with
  | .requestError _ => none
  | .jsonError _ => none
  | .ok data =>
    match data.children with
    | none => none
    | some children =>
      let iteration := (find_current_iteration_recursive parseDate current_date
        (toString current_date.year) children).1
      if pyTruthy iteration then iteration else none

/-! ## `add_tag` (source lines 234-257)

Each `requests.patch` call is a collaborator. For a non-200 response the
source runs `response.json().get('message', response.text)`:
an undecodable body raises `requests.exceptions.JSONDecodeError`, a
`RequestException`, caught by the handler (reported as a network error);
a body that decodes to a JSON object yields its `message` field or the raw
text; but a body that decodes to a valid non-object (array, string, number)
makes `.get` raise `AttributeError`, which no handler catches. -/

/-- What `response.json()` would yield for a response body. -/
inductive JsonBody where
  | invalid
  | obj (message : Option String)
  | nonObj
deriving Repr, DecidableEq

/-- Observable outcome of one `requests.patch` call. -/
inductive PatchResult where
  | response (status : Int) (body : JsonBody) (text : String)
  | requestError (msg : String)

/-- Per-ticket outcome as reported by `add_tag`'s prints. -/
inductive TicketOutcome where
  | success
  | httpFailure (status : Int) (reason : String)
  | networkFailure (msg : String)
deriving Repr, DecidableEq

/-- `add_tag`: one sequential attempt per ticket, in list order. The
`try/except RequestException` inside the loop contains per-ticket network
failures; `.error ()` models the uncaught `AttributeError` aborting the loop
(and the whole hook). `tag_value` and `iteration_value` only enter the
request body, which the oracle already accounts for. -/
def add_tag (patch : String → PatchResult) :
    List String → Except Unit (List (String × TicketOutcome))
  | [] => .ok []
  | ticket_num :: rest =>
    let step : Except Unit TicketOutcome :=
      match patch ticket_num with
      | .response status body text =>
        if status = 200 then .ok .success
        else
          match body with
          | .invalid => .ok (.networkFailure "JSONDecodeError")
          | .obj message => .ok (.httpFailure status (message.getD text))
          | .nonObj => .error ()
      | .requestError e => .ok (.networkFailure e)
    match step with
    | .error e => .error e
    | .ok outcome =>
      match add_tag patch rest with
      | .error e => .error e
      | .ok outcomes => .ok ((ticket_num, outcome) :: outcomes)

/-! ## `process_commits` (source lines 275-320)

The `git merge-base` and `git log` subprocess calls are collaborators; an
`Except.error msg` models `CalledProcessError`. `process_commits` catches
`CalledProcessError`, prints, and re-raises (lines 317-320), so it
propagates; the `AttributeError` out of `add_tag` is not caught at all. -/

/-- The two `check_output` git invocations `process_commits` makes, each
returning the raw decoded stdout or a `CalledProcessError`. -/
structure GitOracle where
  mergeBase : String → String → Except String String
  log : String → Except String String

/-- An exception escaping `process_commits`. -/
inductive HookError where
  | calledProcessError (msg : String)
  | attributeError
deriving Repr, DecidableEq

/-- Terminal state of one push-event line inside `process_commits`. -/
inductive ProcessOutcome where
  | skipped
  | noCommits
  | noTickets
  | abortedNoIteration
  | updated (results : List (String × TicketOutcome))
deriving Repr, DecidableEq

/-- The all-zero "new branch" sentinel. -/
def zeroSha : String := "0000000000000000000000000000000000000000"

/-- Range resolution (source lines 289-294): for the new-branch sentinel,
`git merge-base local_sha origin/<default_branch>`, stripped; otherwise
`remote_sha..local_sha`. -/
def resolveRange (git : GitOracle) (local_sha remote_sha default_branch : String) :
    Except HookError String :=
  if remote_sha = zeroSha then
    match git.mergeBase local_sha ("origin/" ++ default_branch) with
    | .error e => .error (.calledProcessError e)
    | .ok out => .ok (pyStrip out ++ ".." ++ local_sha)
  else .ok (remote_sha ++ ".." ++ local_sha)

/-- `process_commits`. Note the branch filter: `branch_name` is
`local_ref.split('/')[-1]`, the text after the LAST slash, and the skip
condition is `branch_name.upper().startswith('CR/')`. -/
def process_commits (git : GitOracle) (ado : AdoGetResult)
    (patch : String → PatchResult) (parseDate : String → Option Date)
    (current_date : Date) (local_ref local_sha remote_sha default_branch : String) :
    Except HookError ProcessOutcome :=
  let branch_name := afterLastSlash local_ref
  if pyStartsWith (pyUpper branch_name) "CR/" then .ok .skipped
  else
    match resolveRange git local_sha remote_sha default_branch with
    | .error e => .error e
    | .ok commit_range =>
      match git.log commit_range with
      | .error e => .error (.calledProcessError e)
      | .ok git_log_output =>
        let commit_messages := pyStrip git_log_output
        if pyStrFalsy commit_messages then .ok .noCommits
        else
          let ticket_nums := parse_commit_message commit_messages
          if ticket_nums.isEmpty then .ok .noTickets
          else
            match get_current_iteration parseDate ado current_date with
            | none => .ok .abortedNoIteration
            | some _iteration_value =>
              match add_tag patch ticket_nums with
              | .error _ => .error .attributeError
              | .ok results => .ok (.updated results)

/-! ## `main` (source lines 323-368)

`get_default_branch()` and the credential discovery are collaborators
(`default_branch : Option String`, `token : String`). The model records the
process exit code and the `process_commits` outcomes of the lines actually
processed.

The source has an arity defect: line 366 calls
`process_commits(local_ref, local_sha, remote_ref, remote_sha,
default_branch)` — five arguments — but `process_commits` (line 275)
declares four parameters `(local_ref, local_sha, remote_sha,
default_branch)`. In Python that call raises `TypeError` before the body
runs, so every non-blank, well-formed input line terminates the hook with a
non-zero exit and `process_commits` is never entered. The model reproduces
this: a well-formed line yields exit code 1 with no outcome recorded. -/

structure MainResult where
  exitCode : Nat
  outcomes : List ProcessOutcome
  uncaught : Option String
deriving Repr, DecidableEq

/-- The `for line in stdin_lines` loop (source lines 360-366): strip, skip
blanks, unpack exactly four whitespace tokens (an uncaught `ValueError`
otherwise), then the five-argument call to the four-parameter
`process_commits`, an uncaught `TypeError`. Either uncaught exception
terminates the interpreter with exit code 1; `outcomes` records the
`process_commits` results of the lines actually processed (always none,
since the defective call precedes any processing). -/
def mainLoop : List String → MainResult
  | [] => ⟨0, [], none⟩
  | line :: rest =>
    let stripped := pyStrip line
    if pyStrFalsy stripped then mainLoop rest
    else
      match pySplitWs stripped with
      | [_local_ref, _local_sha, _remote_ref, _remote_sha] => ⟨1, [], some "TypeError"⟩
      | _ => ⟨1, [], some "ValueError"⟩

/-- The source's `main`: exit 1 when the default branch cannot be
determined (`sys.exit(1)`); read stdin; nothing to process on empty input;
skip the whole run when the token is the placeholder
(`TOKEN == "TODO" or not TOKEN`); otherwise run the loop.
(Named `hookMain` because `main` is reserved in Lean.) -/
def hookMain (default_branch : Option String) (token : String)
    (stdin_lines : List String) : MainResult :=
  match default_branch with
  | none => ⟨1, [], none⟩
  | some _ =>
    let is_setup_complete := !(token = "TODO" || pyStrFalsy token)
    if stdin_lines.isEmpty then ⟨0, [], none⟩
    else if !is_setup_complete then ⟨0, [], none⟩
    else mainLoop stdin_lines

/-! ## Concrete fixtures for witnesses and counterexamples -/

/-- A concrete date-parsing oracle recognising the two ISO strings used by
the fixture trees (everything else is a `ValueError`). -/
def parseDateFix : String → Option Date := fun s =>
  if s = "2024-01-01T00:00:00Z" then some ⟨2024, 1, 1⟩
  else if s = "2024-12-31T00:00:00Z" then some ⟨2024, 12, 31⟩
  else none

/-- The fixture reference date, 2024-06-15 (UTC). -/
def dateFix : Date := ⟨2024, 6, 15⟩

/-- Attributes whose date range is all of 2024. -/
def attrs2024 : Attrs := ⟨some "2024-01-01T00:00:00Z", some "2024-12-31T00:00:00Z"⟩

/-- A forest with a year grouping node (no dates) containing one sprint
node whose range contains `dateFix`. -/
def sampleForest : NodeForest :=
  .cons ⟨some "Y2024", "Iterations/2024", none⟩
    (.cons ⟨some "S1", "Iterations/2024/S1", some attrs2024⟩ .nil .nil)
    .nil

/-- Counterexample forest for the resolver's first-match claim: the first
qualifying node in pre-order is a child with the EMPTY-string name (under a
non-qualifying parent), and a later qualifying sibling is named `Q`. -/
def cexForest : NodeForest :=
  .cons ⟨some "P", "parent", none⟩
    (.cons ⟨some "", "2024 A", some attrs2024⟩ .nil .nil)
    (.cons ⟨some "Q", "2024 Q", some attrs2024⟩ .nil .nil)

/-- The first qualifying node of `cexForest` in pre-order. -/
def cexNodeA : NodeData := ⟨some "", "2024 A", some attrs2024⟩

/-- Witness forest: a qualifying parent with a qualifying child, all names
non-empty. -/
def tieForest : NodeForest :=
  .cons ⟨some "Parent", "2024", some attrs2024⟩
    (.cons ⟨some "Child", "2024 c", some attrs2024⟩ .nil .nil)
    .nil

/-- Witness forest for the date-parse-warning claim: the head node's start
date does not parse; its child and its sibling both qualify. -/
def warnForest : NodeForest :=
  .cons ⟨some "Bad", "2024 bad", some ⟨some "junk", some "2024-12-31T00:00:00Z"⟩⟩
    (.cons ⟨some "Child", "2024 c", some attrs2024⟩ .nil .nil)
    (.cons ⟨some "Sib", "2024 s", some attrs2024⟩ .nil .nil)

/-- A git oracle whose calls all succeed; the log contains one ticket. -/
def gitOk : GitOracle :=
  ⟨fun _ _ => .ok "basesha\n", fun _ => .ok "fix stuff AB#42\n"⟩

/-- A patch oracle whose calls all succeed. -/
def patchOk : String → PatchResult := fun _ => .response 200 (.obj none) ""

/-- A patch oracle that rejects ticket 2 with a proper JSON-object error
body and accepts the rest. -/
def patchReject2 : String → PatchResult := fun t =>
  if t = "2" then .response 404 (.obj (some "denied")) "err" else .response 200 (.obj none) ""

/-- A patch oracle that rejects ticket 2 with a body that is valid JSON but
not a JSON object (for example the array `[]`). -/
def patchReject2NonObj : String → PatchResult := fun t =>
  if t = "2" then .response 404 .nonObj "[]" else .response 200 (.obj none) ""

/-- A well-formed push-event line for a new branch (all-zero remote sha). -/
def zeroLine : String :=
  "refs/heads/feature abcd1234 refs/heads/feature 0000000000000000000000000000000000000000"

/-! ## Helper lemmas -/

/-- Python string falsiness is emptiness. -/
theorem pyStrFalsy_eq_true_iff (s : String) : pyStrFalsy s = true ↔ s = "" := by
  obtain ⟨l⟩ := s
  simp only [pyStrFalsy, String.toList, String.data, List.isEmpty_iff]
  constructor
  · rintro rfl
    rfl
  · intro h
    have := congrArg String.data h
    simpa using this

/-- The executable substring check agrees with `List.IsInfix`. -/
theorem listIsInfixOf_eq_true_iff (needle hay : List Char) :
    listIsInfixOf needle hay = true ↔ needle <:+: hay := by
  induction hay with
  | nil =>
    simp [listIsInfixOf]
  | cons c t ih =>
    simp only [listIsInfixOf, Bool.or_eq_true, ih]
    constructor
    · rintro (hpre | hinf)
      · exact (( List.isPrefixOf_iff_prefix).mp hpre).isInfix
      · exact hinf.trans (List.suffix_cons c t).isInfix
    · rintro ⟨s, u, hsu⟩
      cases s with
      | nil =>
        refine Or.inl (( List.isPrefixOf_iff_prefix).mpr ⟨u, ?_⟩)
        simpa using hsu
      | cons a s =>
        refine Or.inr ⟨s, u, ?_⟩
        simp only [List.cons_append] at hsu
        injection hsu with h1 h2

/-- Unfolding of `preorderList` on a non-empty forest. -/
theorem preorder_cons (data : NodeData) (children rest : NodeForest) :
    preorderList (.cons data children rest)
      = data :: (preorderList children ++ preorderList rest) := rfl

/-- Exact characterisation of the `matched` outcome of the per-node test. -/
theorem nodeTest_matched_iff (parseDate : String → Option Date) (current_date : Date)
    (current_year : String) (node : NodeData) :
    nodeTest parseDate current_date current_year node = .matched ↔
      (pyContains node.path current_year = true ∧
       ∃ attrs s f sd fd,
         node.attributes = some attrs ∧
         attrs.startDate = some s ∧ s ≠ "" ∧
         attrs.finishDate = some f ∧ f ≠ "" ∧
         parseDate s = some sd ∧ parseDate f = some fd ∧
         dateLe sd current_date = true ∧ dateLe current_date fd = true) := by
  obtain ⟨nm, path, oattrs⟩ := node
  cases oattrs with
  | none => simp [nodeTest]
  | some attrs =>
    obtain ⟨os, ofin⟩ := attrs
    by_cases hin : pyContains path current_year = true
    · cases os with
      | none => simp [nodeTest, hin, strTruthy]
      | some s =>
        cases ofin with
        | none => simp [nodeTest, hin, strTruthy]
        | some f =>
          by_cases hs : pyStrFalsy s = true
          · have hs0 : s = "" := ( pyStrFalsy_eq_true_iff s).mp hs
            subst hs0
            simp [nodeTest, hin, strTruthy, hs]
          · have hs0 : s ≠ "" := fun h => hs (( pyStrFalsy_eq_true_iff s).mpr h)
            by_cases hf : pyStrFalsy f = true
            · have hf0 : f = "" := ( pyStrFalsy_eq_true_iff f).mp hf
              subst hf0
              simp [nodeTest, hin, strTruthy, hf]
            · have hf0 : f ≠ "" := fun h => hf (( pyStrFalsy_eq_true_iff f).mpr h)
              have hs1 : pyStrFalsy s = false := by simpa using hs
              have hf1 : pyStrFalsy f = false := by simpa using hf
              cases hps : parseDate s with
              | none => simp [nodeTest, hin, strTruthy, hs1, hf1, hps]
              | some sd =>
                cases hpf : parseDate f with
                | none => simp [nodeTest, hin, strTruthy, hs1, hf1, hps, hpf]
                | some fd =>
                  by_cases hle : (dateLe sd current_date && dateLe current_date fd) = true
                  · simp only [Bool.and_eq_true] at hle
                    simp [nodeTest, hin, strTruthy, hs1, hf1, hps, hpf, hle.1, hle.2, hs0, hf0]
                  · simp only [Bool.and_eq_true, not_and_or] at hle
                    rcases hle with hle | hle <;>
                      simp [nodeTest, hin, strTruthy, hs1, hf1, hps, hpf, hs0, hf0,
                        Bool.eq_false_iff.mpr hle]
    · have hin0 : pyContains path current_year = false := by
        cases h : pyContains path current_year
        · rfl
        · exact absurd h hin
      simp [nodeTest, hin0]

/-- A failed date parse (start or finish) on a node that is otherwise
eligible produces exactly the `warned` outcome of the per-node test. -/
theorem nodeTest_warned_of_parse_failure (parseDate : String → Option Date) (current_date : Date)
    (current_year : String) (data : NodeData) (attrs : Attrs) (s f : String)
    (hin : pyContains data.path current_year = true)
    (hattrs : data.attributes = some attrs)
    (hstart : attrs.startDate = some s) (hs : s ≠ "")
    (hfin : attrs.finishDate = some f) (hf : f ≠ "")
    (hfail : parseDate s = none ∨ parseDate f = none) :
    nodeTest parseDate current_date current_year data = .warned := by
  obtain ⟨nm, path, oattrs⟩ := data
  obtain ⟨os, ofin⟩ := attrs
  simp only [NodeData.attributes] at hattrs
  subst hattrs
  dsimp only at hstart hfin
  subst hstart
  subst hfin
  have hs1 : pyStrFalsy s = false := by
    cases h : pyStrFalsy s
    · rfl
    · exact absurd (( pyStrFalsy_eq_true_iff s).mp h) hs
  have hf1 : pyStrFalsy f = false := by
    cases h : pyStrFalsy f
    · rfl
    · exact absurd (( pyStrFalsy_eq_true_iff f).mp h) hf
  rcases hfail with hfail | hfail
  · simp [nodeTest, hin, strTruthy, hs1, hf1, hfail]
  · cases hps : parseDate s with
    | none => simp [nodeTest, hin, strTruthy, hs1, hf1, hps]
    | some sd => simp [nodeTest, hin, strTruthy, hs1, hf1, hps, hfail]

/-- A node whose test is `warned` is not returned; the search continues
into its children, then its following siblings, and the node's name heads
the warning list. -/
theorem warned_node_continues (parseDate : String → Option Date) (current_date : Date)
    (current_year : String) (data : NodeData) (children rest : NodeForest)
    (hw : nodeTest parseDate current_date current_year data = .warned) :
    nodeMatches parseDate current_date current_year data = false ∧
    (find_current_iteration_recursive parseDate current_date current_year
        (.cons data children rest)).2.head? = some data.name ∧
    (find_current_iteration_recursive parseDate current_date current_year
        (.cons data children rest)).1 =
      (if pyTruthy (find_current_iteration_recursive parseDate current_date current_year
          children).1 = true
       then (find_current_iteration_recursive parseDate current_date current_year children).1
       else (find_current_iteration_recursive parseDate current_date current_year rest).1) := by
  refine ⟨by simp [nodeMatches, hw], ?_, ?_⟩
  · simp only [find_current_iteration_recursive, hw]
    split <;> simp
  · simp only [find_current_iteration_recursive, hw]
    split <;> simp_all

/-- Every string the regex scan emits is a non-empty digit run occurring in
the text immediately after a case-insensitive `AB#` marker. -/
theorem scanTickets_sound (l : List Char) :
    ∀ s ∈ scanTickets l, s ≠ "" ∧ s.toList.all Char.isDigit = true ∧
      ∃ a b pre post, isAB a b = true ∧ l = pre ++ (a :: b :: '#' :: s.toList) ++ post := by
  induction l using scanTickets.induct with
  | case1 a b d rest h ih =>
    intro s hs
    rw [scanTickets.eq_1, if_pos h] at hs
    rcases List.mem_cons.mp hs with rfl | hs'
    · obtain ⟨hab, hd⟩ := Bool.and_eq_true .. |>.mp h
      refine ⟨?_, ?_, a, b, [], rest.dropWhile Char.isDigit, hab, ?_⟩
      · intro hcon
        have := congrArg String.toList hcon
        simp [String.toList] at this
      · simp only [String.toList, List.all_cons, hd, Bool.true_and, List.all_eq_true]
        intro x hx
        exact List.mem_takeWhile_imp hx
      · simp only [String.toList, List.nil_append, List.cons_append]
        rw [List.takeWhile_append_dropWhile]
    · obtain ⟨h1, h2, a', b', pre, post, hab, heq⟩ := ih s hs'
      exact ⟨h1, h2, a', b', a :: b :: '#' :: d :: pre, post, hab, by simp [heq]⟩
  | case2 a b d rest h ih =>
    intro s hs
    rw [scanTickets.eq_1, if_neg h] at hs
    obtain ⟨h1, h2, a', b', pre, post, hab, heq⟩ := ih s hs
    exact ⟨h1, h2, a', b', a :: pre, post, hab, by simp [heq]⟩
  | case3 head rest hne ih =>
    intro s hs
    rw [scanTickets.eq_2 head rest hne] at hs
    obtain ⟨h1, h2, a', b', pre, post, hab, heq⟩ := ih s hs
    exact ⟨h1, h2, a', b', head :: pre, post, hab, by simp [heq]⟩
  | case4 =>
    intro s hs
    simp [scanTickets.eq_3] at hs

/-- Text with no marker occurrence scans to the empty list. -/
theorem scanTickets_eq_nil_of_no_marker (l : List Char) (h : containsMarker l = false) :
    scanTickets l = [] := by
  induction l using scanTickets.induct with
  | case1 a b d rest hc ih =>
    rw [containsMarker.eq_1] at h
    simp [hc] at h
  | case2 a b d rest hc ih =>
    rw [containsMarker.eq_1] at h
    simp only [Bool.or_eq_false_iff] at h
    rw [scanTickets.eq_1, if_neg hc]
    exact ih h.2
  | case3 head rest hne ih =>
    rw [containsMarker.eq_2 head rest hne] at h
    rw [scanTickets.eq_2 head rest hne]
    exact ih h
  | case4 => rfl

/-- The marker detector is exactly occurrence of `AB#` followed by a digit. -/
theorem containsMarker_eq_true_iff (l : List Char) :
    containsMarker l = true ↔
      ∃ a b d pre post, isAB a b = true ∧ d.isDigit = true ∧
        l = pre ++ [a, b, '#', d] ++ post := by
  induction l using containsMarker.induct with
  | case1 a b d rest ih =>
    rw [containsMarker.eq_1]
    simp only [Bool.or_eq_true, ih]
    constructor
    · rintro (hc | ⟨a', b', d', pre, post, hab, hd, heq⟩)
      · obtain ⟨hab, hd⟩ := Bool.and_eq_true .. |>.mp hc
        exact ⟨a, b, d, [], rest, hab, hd, rfl⟩
      · exact ⟨a', b', d', a :: pre, post, hab, hd, by simp [heq]⟩
    · rintro ⟨a', b', d', pre, post, hab, hd, heq⟩
      cases pre with
      | nil =>
        simp only [List.nil_append, List.cons_append] at heq
        injection heq with e1 heq
        injection heq with e2 heq
        injection heq with e3 heq
        injection heq with e4 heq
        subst e1
        subst e2
        subst e4
        exact Or.inl (by simp [hab, hd])
      | cons x pre' =>
        simp only [List.cons_append] at heq
        injection heq with e1 heq
        exact Or.inr ⟨a', b', d', pre', post, hab, hd, heq⟩
  | case2 head rest hne ih =>
    rw [containsMarker.eq_2 head rest hne]
    rw [ih]
    constructor
    · rintro ⟨a', b', d', pre, post, hab, hd, heq⟩
      exact ⟨a', b', d', head :: pre, post, hab, hd, by simp [heq]⟩
    · rintro ⟨a', b', d', pre, post, hab, hd, heq⟩
      cases pre with
      | nil =>
        simp only [List.nil_append, List.cons_append] at heq
        injection heq with e1 heq
        exact absurd heq (by intro hcon; exact hne b' d' post (by simpa using hcon))
      | cons x pre' =>
        simp only [List.cons_append] at heq
        injection heq with e1 heq
        exact ⟨a', b', d', pre', post, hab, hd, heq⟩
  | case3 =>
    simp [containsMarker.eq_3]

/-! ## Claim theorems -/

/-- C1 (code defect): the claim says a push-event line whose branch name
begins case-insensitively with `CR/` reaches Skipped without invoking the
extractor, the resolver, or the updater. In the code, `branch_name` is the
text after the LAST slash of `local_ref`, which can never contain a slash,
so `branch_name.upper().startswith('CR/')` never holds: for the Code Review
branch `CR/feature` the pipeline runs to completion — extraction,
resolution, and a work-item update all happen. -/
theorem cr_branch_not_skipped :
    afterLastSlash "refs/heads/CR/feature" = "feature" ∧
    pyStartsWith (pyUpper (afterLastSlash "refs/heads/CR/feature")) "CR/" = false ∧
    process_commits gitOk (.ok ⟨some sampleForest⟩) patchOk parseDateFix dateFix
      "refs/heads/CR/feature" "abc" "def0" "main" = .ok (.updated [("42", .success)]) :=
  ⟨by decide, by decide, rfl⟩

/-- C2 (amended): provided every node of the tree has a non-empty name, the
resolver returns exactly the name of the first node in depth-first pre-order
(node before its children, children in listed order) that qualifies, and
`none` when no node qualifies; in particular a qualifying parent wins over
its qualifying descendants and at most one name is returned. (Without the
name proviso the original claim fails: a qualifying node whose name is
`None` or empty returns a falsy value, which the enclosing recursion treats
as not-found and keeps searching.) -/
theorem find_first_preorder (parseDate : String → Option Date) (current_date : Date)
    (current_year : String) (f : NodeForest)
    (hname : ∀ n ∈ preorderList f, pyTruthy n.name = true) :
    (find_current_iteration_recursive parseDate current_date current_year f).1
      = ((preorderList f).find? (nodeMatches parseDate current_date current_year)).bind
          NodeData.name := by
  induction f with
  | nil => simp [find_current_iteration_recursive, preorderList]
  | cons data children rest ihc ihr =>
    have hc := ihc (fun n hn => hname n (by simp [preorder_cons]; right; left; exact hn))
    have hr := ihr (fun n hn => hname n (by simp [preorder_cons]; right; right; exact hn))
    rw [preorder_cons]
    cases hm : nodeTest parseDate current_date current_year data with
    | matched =>
      have hmt : nodeMatches parseDate current_date current_year data = true := by
        simp [nodeMatches, hm]
      simp [find_current_iteration_recursive, hm, List.find?_cons_of_pos _ hmt]
    | warned =>
      have hmf : ¬ nodeMatches parseDate current_date current_year data = true := by
        simp [nodeMatches, hm]
      rw [List.find?_cons_of_neg _ hmf, List.find?_append]
      simp only [find_current_iteration_recursive, hm]
      cases hfc : (preorderList children).find?
          (nodeMatches parseDate current_date current_year) with
      | some k =>
        have hk : pyTruthy k.name = true := by
          have hkmem := List.mem_of_find?_eq_some hfc
          exact hname k (by simp [preorder_cons]; right; left; exact hkmem)
        rw [hfc] at hc
        simp [hc, hk]
      | none =>
        rw [hfc] at hc
        simp [hc, pyTruthy, hr]
    | noMatch =>
      have hmf : ¬ nodeMatches parseDate current_date current_year data = true := by
        simp [nodeMatches, hm]
      rw [List.find?_cons_of_neg _ hmf, List.find?_append]
      simp only [find_current_iteration_recursive, hm]
      cases hfc : (preorderList children).find?
          (nodeMatches parseDate current_date current_year) with
      | some k =>
        have hk : pyTruthy k.name = true := by
          have hkmem := List.mem_of_find?_eq_some hfc
          exact hname k (by simp [preorder_cons]; right; left; exact hkmem)
        rw [hfc] at hc
        simp [hc, hk]
      | none =>
        rw [hfc] at hc
        simp [hc, pyTruthy, hr]

/-- C2 counterexample to the claim as stated: in `cexForest` the first
qualifying node in pre-order is the empty-named child `cexNodeA`, yet the
resolver keeps searching and returns the name of the later sibling `Q` —
so the search does not stop at the first qualifying node and the returned
name is not that node's name. -/
theorem resolver_not_first_match_cex :
    nodeMatches parseDateFix dateFix "2024" cexNodeA = true ∧
    (preorderList cexForest).find? (nodeMatches parseDateFix dateFix "2024") = some cexNodeA ∧
    (find_current_iteration_recursive parseDateFix dateFix "2024" cexForest).1 = some "Q" ∧
    cexNodeA.name ≠ some "Q" :=
  ⟨by decide, by decide, by decide, by decide⟩

/-- C2 witness: on `tieForest` (qualifying parent above qualifying child,
names non-empty) the theorem yields the parent's name. -/
theorem find_first_preorder_witness :
    (find_current_iteration_recursive parseDateFix dateFix "2024" tieForest).1
      = some "Parent" := by
  rw [ find_first_preorder parseDateFix dateFix "2024" tieForest (by decide)]
  decide

/-- C3: a node qualifies exactly when its path contains the reference
date's calendar year as a substring, it carries both a (non-empty, parsing)
start and finish date, and the reference calendar date lies inclusively
between them. -/
theorem nodeMatches_characterisation (parseDate : String → Option Date) (current_date : Date)
    (node : NodeData) :
    nodeMatches parseDate current_date (toString current_date.year) node = true ↔
      ((toString current_date.year).toList <:+: node.path.toList ∧
       ∃ attrs s f sd fd,
         node.attributes = some attrs ∧
         attrs.startDate = some s ∧ s ≠ "" ∧
         attrs.finishDate = some f ∧ f ≠ "" ∧
         parseDate s = some sd ∧ parseDate f = some fd ∧
         dateLe sd current_date = true ∧ dateLe current_date fd = true) := by
  have h1 : nodeMatches parseDate current_date (toString current_date.year) node = true ↔
      nodeTest parseDate current_date (toString current_date.year) node = .matched := by
    simp [nodeMatches]
  rw [h1, nodeTest_matched_iff]
  rw [show pyContains node.path (toString current_date.year)
      = listIsInfixOf (toString current_date.year).toList node.path.toList from rfl]
  rw [ listIsInfixOf_eq_true_iff]

/-- C4 (code defect): a remote rejection whose error body is a JSON object
is contained per-ticket (all three tickets attempted, exactly one failure
reported), but a rejection whose body is valid JSON that is not an object
(here for ticket 2) raises `AttributeError` out of `add_tag`: ticket 3 is
never attempted and the exception escapes the updater, contradicting the
claim that malformed response bodies never prevent the remaining attempts
or raise. -/
theorem add_tag_partial_failure_eval :
    add_tag patchReject2 ["1", "2", "3"] =
      .ok [("1", .success), ("2", .httpFailure 404 "denied"), ("3", .success)] ∧
    add_tag patchReject2NonObj ["1", "2", "3"] = .error () :=
  ⟨rfl, rfl⟩

/-- C5 (code defect): `process_commits` itself does propagate a merge-base
or commit-log `CalledProcessError` (second and third conjuncts, which also
show the log range starts at the stripped merge-base output), but the
claim's scenario never happens in a run: the five-argument call to the
four-parameter `process_commits` raises `TypeError` on every well-formed
line before any merge-base computation, for any git oracle whatsoever
(first conjunct), so the non-zero exit is reached for the wrong reason. -/
theorem new_branch_merge_base_fatal :
    hookMain (some "main") "secret-token" [zeroLine] = ⟨1, [], some "TypeError"⟩ ∧
    (∀ (git : GitOracle) (e : String),
      git.mergeBase "abcd1234" "origin/main" = .error e →
      process_commits git (.requestError "x") patchOk parseDateFix dateFix
        "refs/heads/feature" "abcd1234" zeroSha "main" = .error (.calledProcessError e)) ∧
    (∀ (git : GitOracle) (base e : String),
      git.mergeBase "abcd1234" "origin/main" = .ok base →
      git.log (pyStrip base ++ ".." ++ "abcd1234") = .error e →
      process_commits git (.requestError "x") patchOk parseDateFix dateFix
        "refs/heads/feature" "abcd1234" zeroSha "main" = .error (.calledProcessError e)) := by
  have hskip : pyStartsWith (pyUpper (afterLastSlash "refs/heads/feature")) "CR/" = false := by
    decide
  refine ⟨by decide, ?_, ?_⟩
  · intro git e h
    simp [process_commits, resolveRange, hskip, h]
  · intro git base e h1 h2
    simp [process_commits, resolveRange, hskip, h1, h2]

/-- C6: the extractor returns the duplicate-free set of the digit strings
the scan finds; membership coincides with the scan's matches; every member
is a non-empty digit run occurring right after a case-insensitive `AB#`
marker; text with no marker occurrence yields the empty collection; and
occurrences differing only in case or repeated collapse to one element. -/
theorem parse_commit_message_spec (text s : String) :
    (parse_commit_message text).Nodup ∧
    (s ∈ parse_commit_message text ↔ s ∈ scanTickets text.toList) ∧
    (s ∈ parse_commit_message text →
      s ≠ "" ∧ s.toList.all Char.isDigit = true ∧
      ∃ a b pre post, isAB a b = true ∧
        text.toList = pre ++ (a :: b :: '#' :: s.toList) ++ post) ∧
    (containsMarker text.toList = false → parse_commit_message text = []) ∧
    (containsMarker text.toList = true ↔
      ∃ a b d pre post, isAB a b = true ∧ d.isDigit = true ∧
        text.toList = pre ++ [a, b, '#', d] ++ post) ∧
    parse_commit_message "AB#101 ab#101 AB#101" = ["101"] := by
  refine ⟨?_, ?_, ?_, ?_, containsMarker_eq_true_iff _, by decide⟩
  · simp only [parse_commit_message]
    exact List.nodup_dedup _
  · simp [parse_commit_message, List.mem_dedup]
  · intro hmem
    have hsc : s ∈ scanTickets text.toList := by
      simpa [parse_commit_message, List.mem_dedup] using hmem
    exact scanTickets_sound text.toList s hsc
  · intro h
    have hnil := scanTickets_eq_nil_of_no_marker text.toList h
    simp only [parse_commit_message, hnil]
    rfl

/-- C7: whenever `get_current_iteration` yields no iteration (request
failure or timeout, missing `children`, or no qualifying node), a line that
reached the resolution stage ends in the Aborted outcome: `process_commits`
returns normally (no exception), and the updater is never invoked. -/
theorem resolver_none_soft_stop (git : GitOracle) (ado : AdoGetResult)
    (patch : String → PatchResult) (parseDate : String → Option Date) (current_date : Date)
    (local_ref local_sha remote_sha default_branch commit_range git_out : String)
    (hskip : pyStartsWith (pyUpper (afterLastSlash local_ref)) "CR/" = false)
    (hrange : resolveRange git local_sha remote_sha default_branch = .ok commit_range)
    (hlog : git.log commit_range = .ok git_out)
    (hmsg : pyStrFalsy (pyStrip git_out) = false)
    (htickets : (parse_commit_message (pyStrip git_out)).isEmpty = false)
    (hiter : get_current_iteration parseDate ado current_date = none) :
    process_commits git ado patch parseDate current_date local_ref local_sha remote_sha
      default_branch = .ok .abortedNoIteration := by
  simp only [process_commits, hskip, hrange, hlog, hmsg, htickets, hiter]
  simp

/-- C7 witness: a concrete line with one ticket whose resolver GET times
out ends Aborted. -/
theorem resolver_none_soft_stop_witness :
    process_commits gitOk (.requestError "timeout") patchOk parseDateFix dateFix
      "refs/heads/topic" "abc" "def0" "main" = .ok .abortedNoIteration :=
  resolver_none_soft_stop gitOk (.requestError "timeout") patchOk parseDateFix dateFix
    "refs/heads/topic" "abc" "def0" "main" "def0..abc" "fix stuff AB#42\n"
    (by decide) rfl rfl (by decide) (by decide) rfl

/-- C8: a node that is eligible for testing but whose start or finish date
string fails to parse is warned about (its name heads the warning list), is
not a match candidate, and the traversal continues into its children and
then its following siblings instead of raising. -/
theorem date_parse_failure_warns_and_continues (parseDate : String → Option Date)
    (current_date : Date) (current_year : String) (data : NodeData)
    (children rest : NodeForest) (attrs : Attrs) (s f : String)
    (hin : pyContains data.path current_year = true)
    (hattrs : data.attributes = some attrs)
    (hstart : attrs.startDate = some s) (hs : s ≠ "")
    (hfin : attrs.finishDate = some f) (hf : f ≠ "")
    (hfail : parseDate s = none ∨ parseDate f = none) :
    nodeMatches parseDate current_date current_year data = false ∧
    (find_current_iteration_recursive parseDate current_date current_year
        (.cons data children rest)).2.head? = some data.name ∧
    (find_current_iteration_recursive parseDate current_date current_year
        (.cons data children rest)).1 =
      (if pyTruthy (find_current_iteration_recursive parseDate current_date current_year
          children).1 = true
       then (find_current_iteration_recursive parseDate current_date current_year children).1
       else (find_current_iteration_recursive parseDate current_date current_year rest).1) :=
  warned_node_continues parseDate current_date current_year data children rest
    (nodeTest_warned_of_parse_failure parseDate current_date current_year data attrs s f
      hin hattrs hstart hs hfin hf hfail)

/-- C8 witness: the head node of `warnForest` has an unparseable start
date; it is warned about, skipped, and the traversal continues. -/
theorem date_parse_failure_warns_and_continues_witness :
    nodeMatches parseDateFix dateFix "2024"
      ⟨some "Bad", "2024 bad", some ⟨some "junk", some "2024-12-31T00:00:00Z"⟩⟩ = false ∧
    (find_current_iteration_recursive parseDateFix dateFix "2024" warnForest).2.head?
      = some (some "Bad") ∧
    (find_current_iteration_recursive parseDateFix dateFix "2024" warnForest).1 =
      (if pyTruthy (find_current_iteration_recursive parseDateFix dateFix "2024"
          (.cons ⟨some "Child", "2024 c", some attrs2024⟩ .nil .nil)).1 = true
       then (find_current_iteration_recursive parseDateFix dateFix "2024"
          (.cons ⟨some "Child", "2024 c", some attrs2024⟩ .nil .nil)).1
       else (find_current_iteration_recursive parseDateFix dateFix "2024"
          (.cons ⟨some "Sib", "2024 s", some attrs2024⟩ .nil .nil)).1) :=
  date_parse_failure_warns_and_continues parseDateFix dateFix "2024"
    ⟨some "Bad", "2024 bad", some ⟨some "junk", some "2024-12-31T00:00:00Z"⟩⟩
    (.cons ⟨some "Child", "2024 c", some attrs2024⟩ .nil .nil)
    (.cons ⟨some "Sib", "2024 s", some attrs2024⟩ .nil .nil)
    ⟨some "junk", some "2024-12-31T00:00:00Z"⟩ "junk" "2024-12-31T00:00:00Z"
    (by decide) rfl rfl (by decide) rfl (by decide) (Or.inl (by decide))

/-- C9: with the credential absent or equal to the placeholder (`TODO` or
empty), the run is integration-disabled: after reading stdin no push-event
line is processed and the process exits 0. -/
theorem placeholder_token_disables_run (default_branch token : String)
    (stdin_lines : List String) (h : token = "TODO" ∨ token = "") :
    hookMain (some default_branch) token stdin_lines = ⟨0, [], none⟩ := by
  have hcond : (!(token = "TODO" || pyStrFalsy token)) = false := by
    rcases h with rfl | rfl
    · simp
    · have : pyStrFalsy "" = true := by decide
      simp [this]
  cases stdin_lines with
  | nil => simp [hookMain]
  | cons l ls => simp [hookMain, hcond]

/-- C9 witness. -/
theorem placeholder_token_disables_run_witness :
    hookMain (some "main") "TODO" [zeroLine] = ⟨0, [], none⟩ :=
  placeholder_token_disables_run "main" "TODO" [zeroLine] (Or.inl rfl)

/-- C10: a line that is non-blank after stripping but does not split into
exactly four whitespace tokens makes the destructuring raise an uncaught
`ValueError`, terminating the hook with a non-zero exit (blocking the
push) with no line processed. -/
theorem malformed_line_fatal (default_branch token line : String) (rest : List String)
    (htok1 : token ≠ "TODO") (htok2 : token ≠ "")
    (hnb : pyStrFalsy (pyStrip line) = false)
    (hlen : (pySplitWs (pyStrip line)).length ≠ 4) :
    hookMain (some default_branch) token (line :: rest) = ⟨1, [], some "ValueError"⟩ := by
  have ht1 : decide (token = "TODO") = false := decide_eq_false htok1
  have ht2 : pyStrFalsy token = false := by
    cases hx : pyStrFalsy token
    · rfl
    · exact absurd (( pyStrFalsy_eq_true_iff token).mp hx) htok2
  have hloop : mainLoop (line :: rest) = ⟨1, [], some "ValueError"⟩ := by
    simp only [mainLoop, hnb]
    rcases hsp : pySplitWs (pyStrip line) with _ | ⟨a, _ | ⟨b, _ | ⟨c, _ | ⟨d, _ | ⟨e, tl⟩⟩⟩⟩⟩ <;>
      simp_all
  simp [hookMain, ht1, ht2, hloop]

/-- C10 witness: a three-token line. -/
theorem malformed_line_fatal_witness :
    hookMain (some "main") "secret-token" ["refs/heads/f abc refs/heads/f"] =
      ⟨1, [], some "ValueError"⟩ :=
  malformed_line_fatal "main" "secret-token" "refs/heads/f abc refs/heads/f" []
    (by decide) (by decide) (by decide) (by decide)
